import Mathlib

/-!
Verification of the JSON response-extraction logic of
`src/backend/controllers/aiController.js`.

The controller handlers `parseInvoiceFromText` and `getDashboardSummary`
share one parse-recovery scheme for the model response text:

  1. try `JSON.parse(responseText)` on the whole string;
  2. on failure, `responseText.match(/\x7b[\s\S]*\x7d/)` — the greedy regex
     selects the substring from the first opening brace to the last closing
     brace (inclusive), provided the closing brace comes after the opening
     one — and `JSON.parse` of that span;
  3. if the regex has no match, the "no JSON object found" failure;
     if the span fails to parse, the "malformed JSON" failure.

We embed `JSON.parse` (RFC 8259 / ECMAScript `JSON.parse` grammar) as a
total fuel-based recursive-descent parser `jsonParse`, the regex span
selection as `jsonSpan`, and the recovery chain as `extract`.
-/

/-- JSON values as produced by `JSON.parse`.  Numbers are kept in syntactic
form (sign-applied integer part, fraction digits, exponent); strings and
object keys are kept as their decoded character lists. -/
inductive Json where
  | null : Json
  | bool : Bool → Json
  | num : Int → List Char → Int → Json
  | str : List Char → Json
  | arr : List Json → Json
  | obj : List (List Char × Json) → Json

/-- Discriminator: is this JSON value an object? -/
def Json.isObj : Json → Bool
  | .obj _ => true
  | _ => false

/-- JSON insignificant whitespace: space, tab, line feed, carriage return. -/
def isJsonWs (c : Char) : Bool :=
  c = ' ' || c = '\t' || c = '\n' || c = '\r'

/-- Drop leading JSON whitespace. -/
def skipWs : List Char → List Char
  | [] => []
  | c :: cs => if isJsonWs c then skipWs cs else c :: cs

/-- Value of a hexadecimal digit, if any. -/
def hexVal (c : Char) : Option Nat :=
  if '0' ≤ c ∧ c ≤ '9' then some (c.toNat - 48)
  else if 'a' ≤ c ∧ c ≤ 'f' then some (c.toNat - 87)
  else if 'A' ≤ c ∧ c ≤ 'F' then some (c.toNat - 55)
  else none

/-- Body of a JSON string literal, after the opening quote: returns the
decoded characters and the input remaining after the closing quote.
Escapes are decoded; raw control characters are rejected. -/
def parseStringBody : List Char → Option (List Char × List Char)
  | [] => none
  | '"' :: cs => some ([], cs)
  | '\\' :: 'u' :: h1 :: h2 :: h3 :: h4 :: cs =>
    match hexVal h1, hexVal h2, hexVal h3, hexVal h4 with
    | some a, some b, some c, some d =>
      (parseStringBody cs).map
        (fun p => (Char.ofNat (((a * 16 + b) * 16 + c) * 16 + d) :: p.1, p.2))
    | _, _, _, _ => none
  | '\\' :: e :: cs =>
    match escChar e with
    | some c => (parseStringBody cs).map (fun p => (c :: p.1, p.2))
    | none => none
  | c :: cs =>
    if c.toNat < 32 then none
    else (parseStringBody cs).map (fun p => (c :: p.1, p.2))
where
  /-- Decoding of the single-character escapes of JSON. -/
  escChar : Char → Option Char
    | '"' => some '"'
    | '\\' => some '\\'
    | '/' => some '/'
    | 'b' => some (Char.ofNat 8)
    | 'f' => some (Char.ofNat 12)
    | 'n' => some '\n'
    | 'r' => some (Char.ofNat 13)
    | 't' => some '\t'
    | _ => none

/-- Take the longest prefix of decimal digits. -/
def takeDigits : List Char → List Char × List Char
  | [] => ([], [])
  | c :: cs =>
    if c.isDigit then
      let p := takeDigits cs
      (c :: p.1, p.2)
    else ([], c :: cs)

/-- Numeric value of a digit list. -/
def digitsVal (ds : List Char) : Nat :=
  ds.foldl (fun a c => a * 10 + (c.toNat - 48)) 0

/-- Optional fraction part `.digits`; absent fraction yields `[]`. -/
def parseFracPart : List Char → Option (List Char × List Char)
  | '.' :: r =>
    match r with
    | d :: _ => if d.isDigit then some (takeDigits r) else none
    | [] => none
  | cs => some ([], cs)

/-- Optional exponent part `(e|E)(+|-)?digits`; absent exponent yields `0`. -/
def parseExpPart : List Char → Option (Int × List Char)
  | c :: r =>
    if c = 'e' ∨ c = 'E' then
      let signed : Int × List Char :=
        match r with
        | '+' :: t => (1, t)
        | '-' :: t => (-1, t)
        | _ => (1, r)
      match signed.2 with
      | d :: _ =>
        if d.isDigit then
          let p := takeDigits signed.2
          some (signed.1 * (digitsVal p.1 : Int), p.2)
        else none
      | [] => none
    else some (0, c :: r)
  | [] => some (0, [])

/-- JSON number token: optional minus, integer part with no leading zero,
optional fraction, optional exponent. -/
def parseNumber (cs : List Char) : Option (Json × List Char) :=
  let signed : Bool × List Char :=
    match cs with
    | '-' :: r => (true, r)
    | _ => (false, cs)
  let intPart : Option (List Char × List Char) :=
    match signed.2 with
    | '0' :: r => some (['0'], r)
    | c :: r =>
      if c.isDigit then
        let p := takeDigits r
        some (c :: p.1, p.2)
      else none
    | [] => none
  match intPart with
  | none => none
  | some (ds, r1) =>
    match parseFracPart r1 with
    | none => none
    | some (fs, r2) =>
      match parseExpPart r2 with
      | none => none
      | some (ex, r3) =>
        let n : Int := (if signed.1 then -1 else 1) * (digitsVal ds : Int)
        some (.num n fs ex, r3)

mutual

/-- One JSON value, consuming leading whitespace, by recursive descent.
The fuel argument dominates the recursion depth. -/
def parseValue : Nat → List Char → Option (Json × List Char)
  | 0, _ => none
  | f + 1, cs =>
    match skipWs cs with
    | 'n' :: 'u' :: 'l' :: 'l' :: rest => some (.null, rest)
    | 't' :: 'r' :: 'u' :: 'e' :: rest => some (.bool true, rest)
    | 'f' :: 'a' :: 'l' :: 's' :: 'e' :: rest => some (.bool false, rest)
    | '"' :: rest => (parseStringBody rest).map (fun p => (.str p.1, p.2))
    | '[' :: rest =>
      match skipWs rest with
      | ']' :: r => some (.arr [], r)
      | cs2 => (parseElems f cs2).map (fun p => (.arr p.1, p.2))
    | '{' :: rest =>
      match skipWs rest with
      | '}' :: r => some (.obj [], r)
      | cs2 => (parseMembers f cs2).map (fun p => (.obj p.1, p.2))
    | cs1 => parseNumber cs1

/-- Nonempty comma-separated array elements up to the closing bracket. -/
def parseElems : Nat → List Char → Option (List Json × List Char)
  | 0, _ => none
  | f + 1, cs =>
    match parseValue f cs with
    | none => none
    | some (v, r) =>
      match skipWs r with
      | ',' :: r2 => (parseElems f r2).map (fun p => (v :: p.1, p.2))
      | ']' :: r2 => some ([v], r2)
      | _ => none

/-- Nonempty comma-separated object members up to the closing brace.
The input must already start at the opening quote of a key. -/
def parseMembers : Nat → List Char → Option (List (List Char × Json) × List Char)
  | 0, _ => none
  | f + 1, cs =>
    match cs with
    | '"' :: rest =>
      match parseStringBody rest with
      | none => none
      | some (key, r) =>
        match skipWs r with
        | ':' :: r2 =>
          match parseValue f r2 with
          | none => none
          | some (v, r3) =>
            match skipWs r3 with
            | ',' :: r4 => (parseMembers f (skipWs r4)).map (fun p => ((key, v) :: p.1, p.2))
            | '}' :: r4 => some ([(key, v)], r4)
            | _ => none
        | _ => none
    | _ => none

end

/-- The embedding of `JSON.parse`: parse the whole string as one JSON value
with only whitespace around it, or fail.  The fuel `2 * length + 4`
dominates the recursion depth, which grows by at most two per consumed
character, so no well-formed input can exhaust it. -/
def jsonParse (s : String) : Option Json :=
  match parseValue (2 * s.length + 4) s.data with
  | some (v, rest) => if (skipWs rest).isEmpty then some v else none
  | none => none

/-- Index of the first occurrence of `c`, if any. -/
def firstIdxOf (c : Char) : List Char → Option Nat
  | [] => none
  | x :: xs => if x = c then some 0 else (firstIdxOf c xs).map (· + 1)

/-- Index of the last occurrence of `c`, if any. -/
def lastIdxOf (c : Char) : List Char → Option Nat
  | [] => none
  | x :: xs =>
    match lastIdxOf c xs with
    | some i => some (i + 1)
    | none => if x = c then some 0 else none

/-- The inclusive substring of `s` from index `i` to index `j`. -/
def sliceIncl (s : String) (i j : Nat) : String :=
  ⟨(s.data.drop i).take (j - i + 1)⟩

/-- The match of the greedy regex used by the controller: the substring
from the first opening brace to the last closing brace, inclusive,
provided the latter comes strictly after the former; otherwise no match. -/
def jsonSpan (s : String) : Option String :=
  match firstIdxOf '{' s.data, lastIdxOf '}' s.data with
  | some i, some j => if i < j then some (sliceIncl s i j) else none
  | _, _ => none

/-- The failure taxonomy of the extraction: no brace-delimited span in the
text, or a span that is not valid JSON. -/
inductive Reason where
  | noJsonFound : Reason
  | malformedJson : Reason

/-- Tagged outcome of the extraction. -/
inductive ExtractionResult where
  | Success : Json → ExtractionResult
  | Failure : Reason → ExtractionResult

/-- Discriminator: is this outcome the `noJsonFound` failure? -/
def isNoJsonFailure : ExtractionResult → Bool
  | .Failure .noJsonFound => true
  | _ => false

/-- Outcome of the span-recovery attempt on a candidate span. -/
def spanResult (sp : String) : ExtractionResult :=
  match jsonParse sp with
  | some v => .Success v
  | none => .Failure .malformedJson

/-- The response extractor shared by `parseInvoiceFromText` (lines 55-62)
and `getDashboardSummary` (lines 184-200): direct parse, then parse of the
first-brace-to-last-brace span, with the two tagged failures. -/
def extract (s : String) : ExtractionResult :=
  match jsonParse s with
  | some v => .Success v
  | none =>
    match jsonSpan s with
    | none => .Failure .noJsonFound
    | some sp => spanResult sp

/-- Fallback body of `getDashboardSummary` when the extracted span is not
valid JSON (line 194 of the controller). -/
def dashboardFallbackInvalid : Json :=
  .obj [("insights".data, .arr [.str ("AI returned invalid JSON format. Please retry.").data])]

/-- Fallback body of `getDashboardSummary` when the response text has no
brace-delimited span (line 198 of the controller). -/
def dashboardFallbackNoJson : Json :=
  .obj [("insights".data, .arr [.str ("Unable to generate insights from data.").data])]

/-- The parse-to-response stage of `getDashboardSummary` (lines 184-202):
given the model response text, the HTTP status and body sent by
`res.status(...).json(...)`.  Both parse-failure kinds are absorbed into a
status-200 response carrying a fixed placeholder insights object. -/
def getDashboardSummaryParse (responseText : String) : Nat × Json :=
  match jsonParse responseText with
  | some v => (200, v)
  | none =>
    match jsonSpan responseText with
    | some sp =>
      match jsonParse sp with
      | some v => (200, v)
      | none => (200, dashboardFallbackInvalid)
    | none => (200, dashboardFallbackNoJson)

/-- `i` is the index of the first opening brace of `cs`. -/
def FirstLBrace (cs : List Char) (i : Nat) : Prop :=
  cs.get? i = some '{' ∧ ∀ k, k < i → cs.get? k ≠ some '{'

/-- `j` is the index of the last closing brace of `cs`. -/
def LastRBrace (cs : List Char) (j : Nat) : Prop :=
  cs.get? j = some '}' ∧ ∀ k, k < cs.length → j < k → cs.get? k ≠ some '}'

/-- No opening brace of `cs` is strictly followed by a closing brace:
the text contains no brace-delimited span. -/
def NoSpan (cs : List Char) : Prop :=
  ∀ i, i < cs.length → ∀ j, j < cs.length →
    cs.get? i = some '{' → cs.get? j = some '}' → j ≤ i

/-- Every closing brace of `cs` occurs strictly before every opening
brace. -/
def AllRBeforeL (cs : List Char) : Prop :=
  ∀ i, i < cs.length → ∀ j, j < cs.length →
    cs.get? i = some '{' → cs.get? j = some '}' → j < i

instance (cs : List Char) (i : Nat) : Decidable (FirstLBrace cs i) :=
  inferInstanceAs (Decidable (_ ∧ _))

instance (cs : List Char) (j : Nat) : Decidable (LastRBrace cs j) :=
  inferInstanceAs (Decidable (_ ∧ _))

instance (cs : List Char) : Decidable (NoSpan cs) :=
  Nat.decidableBallLT _ _

instance (cs : List Char) : Decidable (AllRBeforeL cs) :=
  Nat.decidableBallLT _ _

theorem get?_some_lt (cs : List Char) (i : Nat) (c : Char) (h : cs.get? i = some c) :
    i < cs.length := by
  induction cs generalizing i with
  | nil => simp [List.get?] at h
  | cons x xs ih =>
    cases i with
    | zero => simp
    | succ n =>
      simp only [List.get?_cons_succ] at h
      exact Nat.succ_lt_succ (ih n h)

theorem firstIdxOf_get (c : Char) (cs : List Char) (i : Nat)
    (h : firstIdxOf c cs = some i) : cs.get? i = some c := by
  induction cs generalizing i with
  | nil => simp [firstIdxOf] at h
  | cons x xs ih =>
    by_cases hx : x = c
    · simp [firstIdxOf, hx] at h
      simp [← h, hx]
    · simp only [firstIdxOf, if_neg hx, Option.map_eq_some'] at h
      obtain ⟨n, hn, rfl⟩ := h
      simpa using ih n hn

theorem firstIdxOf_eq_some (c : Char) (cs : List Char) (i : Nat)
    (h : cs.get? i = some c) (hmin : ∀ k, k < i → cs.get? k ≠ some c) :
    firstIdxOf c cs = some i := by
  induction cs generalizing i with
  | nil => simp [List.get?] at h
  | cons x xs ih =>
    by_cases hx : x = c
    · cases i with
      | zero => simp [firstIdxOf, hx]
      | succ n => exact absurd (by simp [hx]) (hmin 0 (Nat.succ_pos n))
    · cases i with
      | zero => simp only [List.get?_cons_zero, Option.some.injEq] at h; exact absurd h hx
      | succ n =>
        simp only [List.get?_cons_succ] at h
        have hmin' : ∀ k, k < n → xs.get? k ≠ some c := fun k hk hc =>
          hmin (k + 1) (Nat.succ_lt_succ hk) (by simpa using hc)
        simp [firstIdxOf, hx, ih n h hmin']

theorem lastIdxOf_get (c : Char) (cs : List Char) (j : Nat)
    (h : lastIdxOf c cs = some j) : cs.get? j = some c := by
  induction cs generalizing j with
  | nil => simp [lastIdxOf] at h
  | cons x xs ih =>
    cases hrec : lastIdxOf c xs with
    | some n =>
      simp only [lastIdxOf, hrec, Option.some.injEq] at h
      subst h
      simpa using ih n hrec
    | none =>
      simp only [lastIdxOf, hrec] at h
      by_cases hx : x = c
      · simp only [if_pos hx, Option.some.injEq] at h
        simp [← h, hx]
      · simp [if_neg hx] at h

theorem lastIdxOf_eq_none (c : Char) (cs : List Char)
    (h : ∀ k, k < cs.length → cs.get? k ≠ some c) : lastIdxOf c cs = none := by
  induction cs with
  | nil => rfl
  | cons x xs ih =>
    have hx : ¬x = c := fun hc =>
      h 0 (Nat.succ_pos _) (by simp [hc])
    have hxs : lastIdxOf c xs = none := ih fun k hk hc =>
      h (k + 1) (Nat.succ_lt_succ hk) (by simpa using hc)
    simp [lastIdxOf, hxs, hx]

theorem lastIdxOf_eq_some (c : Char) (cs : List Char) (j : Nat)
    (h : cs.get? j = some c) (hmax : ∀ k, k < cs.length → j < k → cs.get? k ≠ some c) :
    lastIdxOf c cs = some j := by
  induction cs generalizing j with
  | nil => simp [List.get?] at h
  | cons x xs ih =>
    cases j with
    | zero =>
      have hxs : lastIdxOf c xs = none := lastIdxOf_eq_none c xs fun k hk hc =>
        hmax (k + 1) (Nat.succ_lt_succ hk) (Nat.succ_pos k) (by simpa using hc)
      simp only [List.get?_cons_zero, Option.some.injEq] at h
      simp [lastIdxOf, hxs, h]
    | succ n =>
      simp only [List.get?_cons_succ] at h
      have hmax' : ∀ k, k < xs.length → n < k → xs.get? k ≠ some c := fun k hk hn hc =>
        hmax (k + 1) (Nat.succ_lt_succ hk) (Nat.succ_lt_succ hn) (by simpa using hc)
      simp [lastIdxOf, ih n h hmax']

theorem jsonSpan_eq_some_of (s : String) (i j : Nat)
    (hf : FirstLBrace s.data i) (hl : LastRBrace s.data j) (hij : i < j) :
    jsonSpan s = some (sliceIncl s i j) := by
  have h1 := firstIdxOf_eq_some '{' s.data i hf.1 hf.2
  have h2 := lastIdxOf_eq_some '}' s.data j hl.1 hl.2
  simp [jsonSpan, h1, h2, hij]

theorem jsonSpan_eq_none_of_noSpan (s : String) (h : NoSpan s.data) :
    jsonSpan s = none := by
  unfold jsonSpan
  cases h1 : firstIdxOf '{' s.data with
  | none => rfl
  | some i =>
    cases h2 : lastIdxOf '}' s.data with
    | none => rfl
    | some j =>
      have gi := firstIdxOf_get '{' s.data i h1
      have gj := lastIdxOf_get '}' s.data j h2
      have hij : j ≤ i :=
        h i (get?_some_lt _ _ _ gi) j (get?_some_lt _ _ _ gj) gi gj
      simp [Nat.not_lt.mpr hij]

/-- Helper: failed direct parse plus no brace-delimited span yields the
`noJsonFound` failure. -/
theorem extract_eq_noJson_aux (s : String) (hp : jsonParse s = none)
    (hn : NoSpan s.data) : extract s = .Failure .noJsonFound := by
  simp [extract, hp, jsonSpan_eq_none_of_noSpan s hn]

/-- Helper: failed direct parse plus a span that fails to parse yields the
`malformedJson` failure. -/
theorem extract_eq_malformed_aux (s sp : String) (hp : jsonParse s = none)
    (hs : jsonSpan s = some sp) (hsp : jsonParse sp = none) :
    extract s = .Failure .malformedJson := by
  simp [extract, hp, hs, spanResult, hsp]

/-- Claim C1: when the direct parse fails and a first opening brace is
later followed by a closing brace, the extractor's fallback candidate is
exactly the substring from the first opening brace to the last closing
brace, inclusive; on the two-embedded-object example the candidate spans
both objects and the intervening text and fails as malformed. -/
theorem extract_span_first_to_last :
    (∀ (s : String) (i j : Nat), jsonParse s = none → FirstLBrace s.data i →
      LastRBrace s.data j → i < j → extract s = spanResult (sliceIncl s i j)) ∧
    jsonSpan ("prefix \x7b\"a\":1\x7d middle \x7b\"b\":2\x7d suffix") =
      some ("\x7b\"a\":1\x7d middle \x7b\"b\":2\x7d") ∧
    extract ("prefix \x7b\"a\":1\x7d middle \x7b\"b\":2\x7d suffix") =
      .Failure .malformedJson := by
  refine ⟨?_, rfl, rfl⟩
  intro s i j hp hf hl hij
  simp [extract, hp, jsonSpan_eq_some_of s i j hf hl hij]

/-- Witness for C1 at the two-embedded-object example: first brace at
index 7, last closing brace at index 28. -/
theorem extract_span_first_to_last_witness :
    extract ("prefix \x7b\"a\":1\x7d middle \x7b\"b\":2\x7d suffix") =
      spanResult (sliceIncl ("prefix \x7b\"a\":1\x7d middle \x7b\"b\":2\x7d suffix") 7 28) :=
  extract_span_first_to_last.1 _ 7 28 (by rfl) (by decide) (by decide) (by decide)

/-- Claim C2: the extractor is total into the tagged outcome type — every
input yields a `Success` or one of the two tagged failures, and no parse
error escapes as anything else. -/
theorem extract_always_tagged (s : String) :
    (∃ v, extract s = .Success v) ∨ extract s = .Failure .noJsonFound ∨
      extract s = .Failure .malformedJson := by
  cases hp : jsonParse s with
  | some v => exact Or.inl ⟨v, by simp [extract, hp]⟩
  | none =>
    cases hs : jsonSpan s with
    | none => exact Or.inr (Or.inl (by simp [extract, hp, hs]))
    | some sp =>
      cases hsp : jsonParse sp with
      | some v => exact Or.inl ⟨v, by simp [extract, hp, hs, spanResult, hsp]⟩
      | none => exact Or.inr (Or.inr (by simp [extract, hp, hs, spanResult, hsp]))

/-- Claim C3: a string that is valid JSON in its entirety is returned as
`Success` of its direct parse. -/
theorem extract_valid_json (s : String) (v : Json) (h : jsonParse s = some v) :
    extract s = .Success v := by
  simp [extract, h]

/-- Witness for C3 on a concrete valid JSON object. -/
theorem extract_valid_json_witness :
    extract ("\x7b\"a\":1\x7d") = .Success (.obj [(['a'], .num 1 [] 0)]) :=
  extract_valid_json _ _ rfl

/-- Claim C4: when the direct parse fails and the text contains no
brace-delimited span, the extractor returns the `noJsonFound` failure; in
particular it does so on the empty string. -/
theorem extract_no_span_failure :
    (∀ s : String, jsonParse s = none → NoSpan s.data →
      extract s = .Failure .noJsonFound) ∧
    extract ("") = .Failure .noJsonFound :=
  ⟨fun s hp hn => extract_eq_noJson_aux s hp hn, rfl⟩

/-- Witness for C4 on a brace-free string. -/
theorem extract_no_span_failure_witness :
    extract ("no braces here") = .Failure .noJsonFound :=
  extract_no_span_failure.1 _ rfl (by decide)

/-- Claim C5: when the direct parse fails and the first-to-last brace span
exists but is not valid JSON, the extractor returns the `malformedJson`
failure; in particular on the example with a missing member value. -/
theorem extract_malformed_span_failure :
    (∀ s sp : String, jsonParse s = none → jsonSpan s = some sp →
      jsonParse sp = none → extract s = .Failure .malformedJson) ∧
    extract ("\x7b\"a\": \x7d") = .Failure .malformedJson :=
  ⟨fun s sp hp hs hsp => extract_eq_malformed_aux s sp hp hs hsp, rfl⟩

/-- Witness for C5: the example string is its own span and fails to
parse. -/
theorem extract_malformed_span_failure_witness :
    extract ("\x7b\"a\": \x7d") = .Failure .malformedJson :=
  extract_malformed_span_failure.1 ("\x7b\"a\": \x7d") ("\x7b\"a\": \x7d") rfl rfl rfl

/-- Claim C6: a valid JSON object wrapped in leading and trailing prose is
recovered by the substring step. -/
theorem extract_prose_wrapped :
    extract ("Sure! \x7b\"a\":1\x7d Hope that helps") =
      .Success (.obj [(['a'], .num 1 [] 0)]) := rfl

/-- Claim C7: the extractor is a pure function of the input string — equal
inputs yield equal outcomes, with no hidden state or randomness. -/
theorem extract_deterministic (s1 s2 : String) (h : s1 = s2) :
    extract s1 = extract s2 := by rw [h]

/-- Witness for C7 at a concrete input. -/
theorem extract_deterministic_witness :
    extract ("\x7b\x7d") = extract ("\x7b\x7d") :=
  extract_deterministic _ _ rfl

/-- Claim C8: the recovery only targets brace-delimited spans — a string
that is not valid JSON as a whole and embeds a valid non-object JSON value
but has no opening brace later followed by a closing brace yields the
`noJsonFound` failure, not the embedded value. -/
theorem extract_ignores_embedded_nonobject (s : String) (hp : jsonParse s = none)
    (_hemb : ∃ sub v, sub.data <:+: s.data ∧ jsonParse sub = some v ∧ v.isObj = false)
    (hn : NoSpan s.data) : extract s = .Failure .noJsonFound :=
  extract_eq_noJson_aux s hp hn

/-- Witness for C8 on a JSON array embedded in prose. -/
theorem extract_ignores_embedded_nonobject_witness :
    extract ("here: [1,2]") = .Failure .noJsonFound :=
  extract_ignores_embedded_nonobject ("here: [1,2]") rfl
    ⟨"[1,2]", .arr [.num 1 [] 0, .num 2 [] 0], ⟨("here: ").data, [], rfl⟩, rfl, rfl⟩
    (by decide)

/-- Counterexample to claim C9 as stated: the four-character input
consisting of a JSON string literal containing a closing then an opening
brace has every closing brace strictly before the first opening brace,
yet the whole input is valid JSON, so the extractor succeeds instead of
returning the `noJsonFound` failure. -/
theorem extract_rbrace_before_lbrace_cex :
    AllRBeforeL (String.data ("\"\x7d\x7b\"")) ∧
    isNoJsonFailure (extract ("\"\x7d\x7b\"")) = false ∧
    extract ("\"\x7d\x7b\"") = .Success (.str ['\x7d', '\x7b']) :=
  ⟨by decide, rfl, rfl⟩

/-- Claim C9 (amended): when additionally the direct parse fails, an input
in which every closing brace occurs strictly before the first opening
brace yields the `noJsonFound` failure — both brace characters being
present does not produce a candidate span. -/
theorem extract_rbrace_before_lbrace (s : String) (hp : jsonParse s = none)
    (h : AllRBeforeL s.data) : extract s = .Failure .noJsonFound :=
  extract_eq_noJson_aux s hp fun i hi j hj gi gj => Nat.le_of_lt (h i hi j hj gi gj)

/-- Witness for amended C9. -/
theorem extract_rbrace_before_lbrace_witness :
    extract ("\x7d text \x7b") = .Failure .noJsonFound :=
  extract_rbrace_before_lbrace _ rfl (by decide)

/-- Claim C10: `getDashboardSummary` absorbs both extraction failure kinds
into a status-200 response whose body is one of the two fixed placeholder
insights objects, never a 500 caused by the parse failure. -/
theorem dashboard_absorbs_parse_failures (t : String) (hp : jsonParse t = none)
    (hfail : jsonSpan t = none ∨ ∃ sp, jsonSpan t = some sp ∧ jsonParse sp = none) :
    (getDashboardSummaryParse t).1 = 200 ∧
      ((getDashboardSummaryParse t).2 = dashboardFallbackInvalid ∨
        (getDashboardSummaryParse t).2 = dashboardFallbackNoJson) := by
  rcases hfail with hs | ⟨sp, hs, hsp⟩
  · simp [getDashboardSummaryParse, hp, hs]
  · simp [getDashboardSummaryParse, hp, hs, hsp]

/-- Witness for C10 on the empty response text. -/
theorem dashboard_absorbs_parse_failures_witness :
    (getDashboardSummaryParse ("")).1 = 200 ∧
      ((getDashboardSummaryParse ("")).2 = dashboardFallbackInvalid ∨
        (getDashboardSummaryParse ("")).2 = dashboardFallbackNoJson) :=
  dashboard_absorbs_parse_failures ("") rfl (Or.inl rfl)
